import Mathlib

/-!
Verification of the Joy-Con HID driver (`pycon/joycon.py`) against its
natural-language specification.  The Python code is shallowly embedded:
byte buffers become `List Nat`, machine integers become `Nat`/`Int` with
explicit masking, Python float division is modelled over `ℚ`, and fallible
code returns `Except String _`.
-/

namespace Pycon

/-- Size of one raw input report, `JoyCon._INPUT_REPORT_SIZE`. -/
def INPUT_REPORT_SIZE : Nat := 49

/-- Fixed rumble-neutral bytes `JoyCon._RUMBLE_DATA`. -/
def RUMBLE_DATA : List Nat := [0x00, 0x01, 0x40, 0x40, 0x00, 0x01, 0x40, 0x40]

/-- Initial all-zero input report installed by `__init__`
(`self._input_report = bytes(self._INPUT_REPORT_SIZE)`). -/
def initial_input_report : List Nat := List.replicate INPUT_REPORT_SIZE 0

/-- Modelled from the spec: the controller variant enumeration.  The
`constants` module holding `JOYCON_PRODUCT_IDS` is not under `src/`; the
spec says the product id is validated against "a left/right/pro variant
enumeration", so the admissible variants are left, right and pro. -/
inductive Variant
| left
| right
| pro
deriving DecidableEq

/-- Embeds `JoyCon.is_left`: true exactly for the left product id. -/
def is_left (v : Variant) : Bool :=
  match v with
  | .left => true
  | _ => false

/-- Embeds `JoyCon.is_right`: true exactly for the right product id. -/
def is_right (v : Variant) : Bool :=
  match v with
  | .right => true
  | _ => false

/-- Embeds `JoyCon._to_int16le_from_2bytes`.  Note the parameter names of
the source are kept: the first argument is in fact the low byte. -/
def to_int16le_from_2bytes (hbytebe lbytebe : Nat) : Int :=
  let uint16le := (lbytebe <<< 8) ||| hbytebe
  if uint16le < 32768 then (uint16le : Int) else (uint16le : Int) - 65536

/-- Mathematical little-endian two's-complement encoding of a 16-bit signed
integer as (low byte, high byte); the inverse direction quantified over by
the round-trip claim. -/
def int16le_to_2bytes (v : Int) : Nat × Nat :=
  let u := (v % 65536).toNat
  (u % 256, u / 256)

/-- Embeds `JoyCon._get_nbit_from_input_report`. -/
def get_nbit_from_input_report (report : List Nat) (offset_byte offset_bit nbit : Nat) : Nat :=
  let byte := report.getD offset_byte 0
  (byte >>> offset_bit) &&& ((1 <<< nbit) - 1)

/-- Embeds `JoyCon.get_battery_charging`. -/
def get_battery_charging (report : List Nat) : Nat :=
  get_nbit_from_input_report report 2 4 1

/-- Embeds `JoyCon.get_battery_level`. -/
def get_battery_level (report : List Nat) : Nat :=
  get_nbit_from_input_report report 2 5 3

/-- Embeds `JoyCon.get_button_y`. -/
def get_button_y (report : List Nat) : Nat := get_nbit_from_input_report report 3 0 1

/-- Embeds `JoyCon.get_button_x`. -/
def get_button_x (report : List Nat) : Nat := get_nbit_from_input_report report 3 1 1

/-- Embeds `JoyCon.get_button_b`. -/
def get_button_b (report : List Nat) : Nat := get_nbit_from_input_report report 3 2 1

/-- Embeds `JoyCon.get_button_a`. -/
def get_button_a (report : List Nat) : Nat := get_nbit_from_input_report report 3 3 1

/-- Embeds `JoyCon.get_button_right_sr`. -/
def get_button_right_sr (report : List Nat) : Nat := get_nbit_from_input_report report 3 4 1

/-- Embeds `JoyCon.get_button_right_sl`. -/
def get_button_right_sl (report : List Nat) : Nat := get_nbit_from_input_report report 3 5 1

/-- Embeds `JoyCon.get_button_r`. -/
def get_button_r (report : List Nat) : Nat := get_nbit_from_input_report report 3 6 1

/-- Embeds `JoyCon.get_button_zr`. -/
def get_button_zr (report : List Nat) : Nat := get_nbit_from_input_report report 3 7 1

/-- Embeds `JoyCon.get_button_minus`. -/
def get_button_minus (report : List Nat) : Nat := get_nbit_from_input_report report 4 0 1

/-- Embeds `JoyCon.get_button_plus`. -/
def get_button_plus (report : List Nat) : Nat := get_nbit_from_input_report report 4 1 1

/-- Embeds `JoyCon.get_button_r_stick`. -/
def get_button_r_stick (report : List Nat) : Nat := get_nbit_from_input_report report 4 2 1

/-- Embeds `JoyCon.get_button_l_stick`. -/
def get_button_l_stick (report : List Nat) : Nat := get_nbit_from_input_report report 4 3 1

/-- Embeds `JoyCon.get_button_home`. -/
def get_button_home (report : List Nat) : Nat := get_nbit_from_input_report report 4 4 1

/-- Embeds `JoyCon.get_button_capture`. -/
def get_button_capture (report : List Nat) : Nat := get_nbit_from_input_report report 4 5 1

/-- Embeds `JoyCon.get_button_charging_grip`. -/
def get_button_charging_grip (report : List Nat) : Nat := get_nbit_from_input_report report 4 7 1

/-- Embeds `JoyCon.get_button_down`. -/
def get_button_down (report : List Nat) : Nat := get_nbit_from_input_report report 5 0 1

/-- Embeds `JoyCon.get_button_up`. -/
def get_button_up (report : List Nat) : Nat := get_nbit_from_input_report report 5 1 1

/-- Embeds `JoyCon.get_button_right`. -/
def get_button_right (report : List Nat) : Nat := get_nbit_from_input_report report 5 2 1

/-- Embeds `JoyCon.get_button_left`. -/
def get_button_left (report : List Nat) : Nat := get_nbit_from_input_report report 5 3 1

/-- Embeds `JoyCon.get_button_left_sr`. -/
def get_button_left_sr (report : List Nat) : Nat := get_nbit_from_input_report report 5 4 1

/-- Embeds `JoyCon.get_button_left_sl`. -/
def get_button_left_sl (report : List Nat) : Nat := get_nbit_from_input_report report 5 5 1

/-- Embeds `JoyCon.get_button_l`. -/
def get_button_l (report : List Nat) : Nat := get_nbit_from_input_report report 5 6 1

/-- Embeds `JoyCon.get_button_zl`. -/
def get_button_zl (report : List Nat) : Nat := get_nbit_from_input_report report 5 7 1

/-- First 12-bit value of the first calibration pair, decoded from bytes
0-2 of the 9-byte block exactly as on the line commented
"X Axis Max above center". -/
def x_max_above (buf : List Nat) : Nat :=
  ((buf.getD 1 0 <<< 8) &&& 0xF00) ||| buf.getD 0 0

/-- Second 12-bit value of the first calibration pair, decoded from bytes
0-2 of the 9-byte block exactly as on the line commented
"Y Axis Max above center". -/
def y_max_above (buf : List Nat) : Nat :=
  (buf.getD 2 0 <<< 4) ||| (buf.getD 1 0 >>> 4)

/-- First 12-bit value of the second calibration pair, decoded from bytes
3-5 of the 9-byte block exactly as on the line commented "X Axis Center". -/
def x_center (buf : List Nat) : Nat :=
  ((buf.getD 4 0 <<< 8) &&& 0xF00) ||| buf.getD 3 0

/-- Second 12-bit value of the second calibration pair, decoded from bytes
3-5 of the 9-byte block exactly as on the line commented "Y Axis Center". -/
def y_center (buf : List Nat) : Nat :=
  (buf.getD 5 0 <<< 4) ||| (buf.getD 4 0 >>> 4)

/-- First 12-bit value of the third calibration pair, decoded from bytes
6-8 of the 9-byte block exactly as on the line commented
"X Axis Min below center". -/
def x_min_below (buf : List Nat) : Nat :=
  ((buf.getD 7 0 <<< 8) &&& 0xF00) ||| buf.getD 6 0

/-- Second 12-bit value of the third calibration pair, decoded from bytes
6-8 of the 9-byte block exactly as on the line commented
"Y Axis Min below center". -/
def y_min_below (buf : List Nat) : Nat :=
  (buf.getD 8 0 <<< 4) ||| (buf.getD 7 0 >>> 4)

/-- Embeds the six assignments of `JoyCon._read_stick_calibration_data`
into `self.stick_cal = [0] * 6`, starting from the chosen 9-byte block
`buf`.  Each `List.set` mirrors one `self.stick_cal[i if is_left else j]`
assignment, in source order. -/
def read_stick_cal_from_buf (isLeft : Bool) (buf : List Nat) : List Nat :=
  ((((((List.replicate 6 0).set
    (if isLeft then 0 else 2) (x_max_above buf)).set
    (if isLeft then 1 else 3) (y_max_above buf)).set
    (if isLeft then 2 else 4) (x_center buf)).set
    (if isLeft then 3 else 5) (y_center buf)).set
    (if isLeft then 4 else 0) (x_min_below buf)).set
    (if isLeft then 5 else 1) (y_min_below buf)

/-- Embeds the block-selection logic of
`JoyCon._read_stick_calibration_data`: read 9 bytes at the side-specific
user address; if every byte is 0xFF, read the side-specific factory
address instead.  `flash` maps (address, size) to the bytes returned by
`_spi_flash_read`. -/
def stick_cal_buf (isLeft : Bool) (flash : Nat → Nat → List Nat) : List Nat :=
  let buf := flash (if isLeft then 0x8012 else 0x801D) 9
  let use_user_data := buf.any (fun b => b != 0xFF)
  if use_user_data then buf
  else flash (if isLeft then 0x603D else 0x6046) 9

/-- Sequence of (address, size) flash reads issued by
`JoyCon._read_stick_calibration_data`, in order. -/
def stick_cal_reads (isLeft : Bool) (flash : Nat → Nat → List Nat) : List (Nat × Nat) :=
  let userAddr := if isLeft then 0x8012 else 0x801D
  let buf := flash userAddr 9
  if buf.any (fun b => b != 0xFF) then [(userAddr, 9)]
  else [(userAddr, 9), ((if isLeft then 0x603D else 0x6046), 9)]

/-- Embeds `JoyCon._read_stick_calibration_data` end to end: blocks are
selected with the user/factory fallback and parsed into `stick_cal`. -/
def read_stick_calibration_data (isLeft : Bool) (flash : Nat → Nat → List Nat) : List Nat :=
  read_stick_cal_from_buf isLeft (stick_cal_buf isLeft flash)

/-- Embeds `JoyCon.get_actual_stick_value`.  Python float division is
modelled over `ℚ`; dividing by a zero calibration slot raises
`ZeroDivisionError` in Python and is modelled as an error. -/
def get_actual_stick_value (stick_cal : List Nat) (deadzone : Nat) (pre_cal : Int)
    (orientation : Nat) : Except String ℚ :=
  let diff : Int := pre_cal - (stick_cal.getD (2 + orientation) 0 : Int)
  if |diff| < (deadzone : Int) then .ok 0
  else if 0 < diff then
    if stick_cal.getD orientation 0 = 0 then .error "ZeroDivisionError"
    else .ok ((diff : ℚ) / (stick_cal.getD orientation 0 : ℚ))
  else
    if stick_cal.getD (4 + orientation) 0 = 0 then .error "ZeroDivisionError"
    else .ok ((diff : ℚ) / (stick_cal.getD (4 + orientation) 0 : ℚ))

/-- Embeds the report-awaiting loop shared by
`JoyCon._send_subcmd_get_response` (tag 0x21) and
`JoyCon._update_input_report` (tag 0x30): read and discard until a report
whose byte 0 equals `tag` arrives; `none` models the stream ending in a
transport failure before any match. -/
def await_report_with_tag (tag : Nat) : List (List Nat) → Option (List Nat)
  | [] => none
  | r :: rest => if r.getD 0 0 = tag then some r else await_report_with_tag tag rest

/-- Embeds the publishing behaviour of `JoyCon._update_input_report`: the
sequence of reports stored into `self._input_report` (and handed to the
registered callbacks) for a given incoming stream. -/
def update_input_report_published : List (List Nat) → List (List Nat)
  | [] => []
  | r :: rest =>
    if r.getD 0 0 = 0x30 then r :: update_input_report_published rest
    else update_input_report_published rest

/-- Little-endian byte encoding, embedding Python `v.to_bytes(len, "little")`
for values that fit. -/
def to_bytes_le (len v : Nat) : List Nat :=
  (List.range len).map (fun i => v / 256 ^ i % 256)

/-- Argument of the 0x10 subcommand built by `JoyCon._spi_flash_read`:
`address.to_bytes(4, "little") + size.to_bytes(1, "little")`. -/
def spi_flash_argument (address size : Nat) : List Nat :=
  to_bytes_le 4 address ++ [size]

/-- Embeds `JoyCon._write_output_report`: the byte frame written to the
device, `command ++ packet counter ++ rumble-neutral bytes ++ subcommand
++ argument`. -/
def write_output_report_frame (packet_number : Nat)
    (command subcommand argument : List Nat) : List Nat :=
  command ++ [packet_number] ++ RUMBLE_DATA ++ subcommand ++ argument

/-- Frame sent by `JoyCon._spi_flash_read`: subcommand 0x10 under report
id 0x01 with the address/size argument. -/
def spi_flash_read_request (packet_number address size : Nat) : List Nat :=
  write_output_report_frame packet_number [0x01] [0x10] (spi_flash_argument address size)

/-- Embeds `JoyCon._spi_flash_read` composed with
`JoyCon._send_subcmd_get_response` over an incoming report stream: the
size assert, the address `to_bytes` overflow behaviour, the 0x21 waiter,
the `report[1:2] != subcommand` assert, the ack test on byte 13, the
0x90 0x10 marker test, the echoed-argument assert, and the final slice
`report[7:size+7]` of the payload `report[13:]`. -/
def spi_flash_read (address size : Nat) (stream : List (List Nat)) : Except String (List Nat) :=
  if size > 0x1D then .error "AssertionError: size"
  else if 2 ^ 32 ≤ address then .error "OverflowError"
  else
    match await_report_with_tag 0x21 stream with
    | none => .error "OSError: read failed"
    | some reply =>
      if (reply.drop 1).take 1 = [0x10] then .error "AssertionError: THREAD carefully"
      else if reply.getD 13 0 &&& 0x80 = 0 then .error "FlashReadNacked"
      else if (reply.drop 13).take 2 ≠ [0x90, 0x10] then .error "UnexpectedReply"
      else if ((reply.drop 13).drop 2).take 5 ≠ spi_flash_argument address size then
        .error "AssertionError: echo"
      else .ok (((reply.drop 13).drop 7).take size)

/-- Stored accelerometer calibration state: the six
`_ACCEL_OFFSET_*` / `_ACCEL_COEFF_*` attributes. -/
structure AccelCal where
  accel_offset_x : Int
  accel_offset_y : Int
  accel_offset_z : Int
  accel_coeff_x : ℚ
  accel_coeff_y : ℚ
  accel_coeff_z : ℚ
deriving Repr

/-- Python truthiness of an optional tuple argument: `None` and the empty
tuple are falsy, every non-empty tuple is truthy. -/
def tuple_is_truthy : Option (List Int) → Bool
  | none => false
  | some l => !l.isEmpty

/-- Embeds `JoyCon.set_accel_calibration`.  The guard mirrors
`if offset_xyz and coeff_xyz:` (body skipped, state unchanged, when either
argument is falsy); unpacking into three variables fails for other
lengths; each coefficient is `(1.0 / (c - o)) * 4.0`, a zero difference
raising `ZeroDivisionError`. -/
def set_accel_calibration (prev : AccelCal) (offset_xyz coeff_xyz : Option (List Int)) :
    Except String AccelCal :=
  if tuple_is_truthy offset_xyz && tuple_is_truthy coeff_xyz then
    match offset_xyz, coeff_xyz with
    | some [ox, oy, oz], some [cx, cy, cz] =>
      if cx = ox then .error "ZeroDivisionError"
      else if cy = oy then .error "ZeroDivisionError"
      else if cz = oz then .error "ZeroDivisionError"
      else .ok ⟨ox, oy, oz,
        (1 / ((cx : ℚ) - (ox : ℚ))) * 4,
        (1 / ((cy : ℚ) - (oy : ℚ))) * 4,
        (1 / ((cz : ℚ) - (oz : ℚ))) * 4⟩
    | _, _ => .error "ValueError: unpack"
  else .ok prev

/-- Embeds `JoyCon.get_accel_y`: falsy-argument fallback to the stored
report, sample-index bounds check, signed 16-bit little-endian decode at
bytes 15/16 + 12*sample, scaled by the Y coefficient and negated for
every non-left variant. -/
def get_accel_y (variant : Variant) (coeff_y : ℚ) (state_report : List Nat)
    (input_report_arg : Option (List Nat)) (sample_idx : Nat) : Except String ℚ :=
  let input_report :=
    match input_report_arg with
    | none => state_report
    | some r => if r.isEmpty then state_report else r
  if sample_idx ∉ ([0, 1, 2] : List Nat) then
    .error "IndexError: sample_idx should be between 0 and 2"
  else .ok ((to_int16le_from_2bytes (input_report.getD (15 + sample_idx * 12) 0)
      (input_report.getD (16 + sample_idx * 12) 0) : ℚ)
    * coeff_y * (if is_left variant then 1 else -1))

/-- Embeds `JoyCon.get_accel_z`: like `get_accel_y` at bytes 17/18 +
12*sample with the Z coefficient. -/
def get_accel_z (variant : Variant) (coeff_z : ℚ) (state_report : List Nat)
    (input_report_arg : Option (List Nat)) (sample_idx : Nat) : Except String ℚ :=
  let input_report :=
    match input_report_arg with
    | none => state_report
    | some r => if r.isEmpty then state_report else r
  if sample_idx ∉ ([0, 1, 2] : List Nat) then
    .error "IndexError: sample_idx should be between 0 and 2"
  else .ok ((to_int16le_from_2bytes (input_report.getD (17 + sample_idx * 12) 0)
      (input_report.getD (18 + sample_idx * 12) 0) : ℚ)
    * coeff_z * (if is_left variant then 1 else -1))

/-! ## Helper lemmas -/

/-- Bitwise or of a left-shifted value with a small value is addition. -/
theorem lor_shiftLeft_add {a b i : Nat} (h : b < 2 ^ i) :
    (a <<< i) ||| b = 2 ^ i * a + b := by
  apply Nat.eq_of_testBit_eq
  intro j
  rw [Nat.testBit_or, Nat.testBit_shiftLeft, Nat.testBit_mul_pow_two_add a h j]
  by_cases hj : j < i
  · simp [hj, Nat.not_le.mpr hj]
  · have hb : b.testBit j = false :=
      Nat.testBit_lt_two_pow
        (lt_of_lt_of_le h (Nat.pow_le_pow_right (by norm_num) (Nat.not_lt.mp hj)))
    simp [hj, Nat.not_lt.mp hj, hb]

/-- Any n-bit extraction is bounded by the mask. -/
theorem get_nbit_le (report : List Nat) (offset_byte offset_bit nbit : Nat) :
    get_nbit_from_input_report report offset_byte offset_bit nbit ≤ 2 ^ nbit - 1 := by
  simp only [get_nbit_from_input_report]
  rw [Nat.shiftLeft_eq, one_mul]
  exact Nat.and_le_right

/-- Any single-bit extraction is at most one. -/
theorem get_nbit_one_le_one (report : List Nat) (offset_byte offset_bit : Nat) :
    get_nbit_from_input_report report offset_byte offset_bit 1 ≤ 1 := by
  have h := get_nbit_le report offset_byte offset_bit 1
  norm_num at h
  exact h

/-- The subcommand-reply waiter only ever returns a report tagged as requested. -/
theorem await_report_with_tag_some (tag : Nat) :
    ∀ (stream : List (List Nat)) (r : List Nat),
      await_report_with_tag tag stream = some r → r.getD 0 0 = tag := by
  intro stream
  induction stream with
  | nil => intro r h; simp [await_report_with_tag] at h
  | cons hd tl ih =>
    intro r h
    simp only [await_report_with_tag] at h
    by_cases hh : hd.getD 0 0 = tag
    · rw [if_pos hh] at h
      cases h
      exact hh
    · rw [if_neg hh] at h
      exact ih r h

/-- The waiter fails exactly when no report of the stream carries the tag. -/
theorem await_report_with_tag_none (tag : Nat) :
    ∀ stream : List (List Nat),
      (await_report_with_tag tag stream = none ↔ ∀ r ∈ stream, r.getD 0 0 ≠ tag) := by
  intro stream
  induction stream with
  | nil => simp [await_report_with_tag]
  | cons hd tl ih =>
    simp only [await_report_with_tag]
    by_cases hh : hd.getD 0 0 = tag
    · rw [if_pos hh]
      constructor
      · intro h
        cases h
      · intro h
        exact absurd hh (h hd (List.mem_cons_self hd tl))
    · rw [if_neg hh]
      simp only [ih, List.mem_cons]
      constructor
      · intro h r hr
        rcases hr with hr | hr
        · subst hr; exact hh
        · exact h r hr
      · intro h r hr
        exact h r (Or.inr hr)

/-- The polling loop publishes exactly the reports tagged 0x30, in order. -/
theorem update_input_report_published_eq_filter :
    ∀ stream : List (List Nat),
      update_input_report_published stream
        = stream.filter (fun r => r.getD 0 0 == 0x30) := by
  intro stream
  induction stream with
  | nil => rfl
  | cons hd tl ih =>
    by_cases hh : hd.getD 0 0 = 0x30
    · simp [update_input_report_published, List.filter_cons, hh, ih]
    · simp [update_input_report_published, List.filter_cons, hh, ih]

/-! ## Claim theorems -/

/-- C7: decoding the 2-byte little-endian encoding of any v in
[-32768, 32767] with the source decoder (low byte as first argument)
returns v: the decode is a left inverse of the encode on the full signed
16-bit range. -/
theorem int16le_decode_encode (v : Int) (h1 : -32768 ≤ v) (h2 : v ≤ 32767) :
    to_int16le_from_2bytes (int16le_to_2bytes v).1 (int16le_to_2bytes v).2 = v := by
  have hm : (v % 65536).toNat % 256 < 2 ^ 8 := by omega
  simp only [to_int16le_from_2bytes, int16le_to_2bytes]
  rw [lor_shiftLeft_add hm]
  have h256 : (2 : Nat) ^ 8 = 256 := by norm_num
  rw [h256]
  have hdm : 256 * ((v % 65536).toNat / 256) + (v % 65536).toNat % 256
      = (v % 65536).toNat := by omega
  rw [hdm]
  split <;> omega

/-- C7 witness: the encoding of -2 is (254, 255) and decodes back to -2. -/
theorem int16le_decode_encode_witness :
    to_int16le_from_2bytes (int16le_to_2bytes (-2)).1 (int16le_to_2bytes (-2)).2 = -2 :=
  int16le_decode_encode (-2) (by decide) (by decide)

/-- C10: the n-bit field extractor is bounded by 2 to the n minus 1 on
every report, hence every single-bit button getter returns 0 or 1, the
battery-charging getter returns 0 or 1, and the battery-level getter is
at most 7; the all-zero initial report is an instance of the
quantification. -/
theorem nbit_and_button_ranges (report : List Nat) :
    (∀ offset_byte offset_bit nbit,
        get_nbit_from_input_report report offset_byte offset_bit nbit ≤ 2 ^ nbit - 1)
    ∧ (get_battery_charging report = 0 ∨ get_battery_charging report = 1)
    ∧ get_battery_level report ≤ 7
    ∧ get_button_y report ≤ 1 ∧ get_button_x report ≤ 1 ∧ get_button_b report ≤ 1
    ∧ get_button_a report ≤ 1 ∧ get_button_right_sr report ≤ 1
    ∧ get_button_right_sl report ≤ 1 ∧ get_button_r report ≤ 1 ∧ get_button_zr report ≤ 1
    ∧ get_button_minus report ≤ 1 ∧ get_button_plus report ≤ 1
    ∧ get_button_r_stick report ≤ 1 ∧ get_button_l_stick report ≤ 1
    ∧ get_button_home report ≤ 1 ∧ get_button_capture report ≤ 1
    ∧ get_button_charging_grip report ≤ 1 ∧ get_button_down report ≤ 1
    ∧ get_button_up report ≤ 1 ∧ get_button_right report ≤ 1 ∧ get_button_left report ≤ 1
    ∧ get_button_left_sr report ≤ 1 ∧ get_button_left_sl report ≤ 1
    ∧ get_button_l report ≤ 1 ∧ get_button_zl report ≤ 1
    ∧ get_battery_charging initial_input_report = 0 := by
  have hlvl : get_battery_level report ≤ 7 := by
    have h := get_nbit_le report 2 5 3
    norm_num at h
    exact h
  refine ⟨fun ob obit n => get_nbit_le report ob obit n, ?_, hlvl,
    get_nbit_one_le_one report 3 0, get_nbit_one_le_one report 3 1,
    get_nbit_one_le_one report 3 2, get_nbit_one_le_one report 3 3,
    get_nbit_one_le_one report 3 4, get_nbit_one_le_one report 3 5,
    get_nbit_one_le_one report 3 6, get_nbit_one_le_one report 3 7,
    get_nbit_one_le_one report 4 0, get_nbit_one_le_one report 4 1,
    get_nbit_one_le_one report 4 2, get_nbit_one_le_one report 4 3,
    get_nbit_one_le_one report 4 4, get_nbit_one_le_one report 4 5,
    get_nbit_one_le_one report 4 7, get_nbit_one_le_one report 5 0,
    get_nbit_one_le_one report 5 1, get_nbit_one_le_one report 5 2,
    get_nbit_one_le_one report 5 3, get_nbit_one_le_one report 5 4,
    get_nbit_one_le_one report 5 5, get_nbit_one_le_one report 5 6,
    get_nbit_one_le_one report 5 7, by decide⟩
  have h := get_nbit_one_le_one report 2 4
  simp only [get_battery_charging]
  omega

/-- C1 counterexample: for a right-side controller and the concrete
9-byte block [1,0,0, 2,0,0, 3,0,0] the slot the normalization formula
reads as center (index 2 + orientation, at orientation 0) holds the
first decoded pair (value 1), not the pair labelled center by the claim
(the second decoded pair, value 2). -/
theorem right_center_slot_not_center_pair :
    (read_stick_cal_from_buf false [1, 0, 0, 2, 0, 0, 3, 0, 0]).getD (2 + 0) 0
      ≠ x_center [1, 0, 0, 2, 0, 0, 3, 0, 0] := by decide

/-- C1 (amended): the left side stores the three decoded 12-bit pairs at
indices (0,1), (2,3), (4,5) in buffer order; the right side stores them
at indices (2,3), (4,5), (0,1).  Hence for the left side the slots the
normalization formula reads as center (2+orientation), above-divisor
(orientation) and below-divisor (4+orientation) hold the second, first
and third decoded pairs, while for the right side they hold the first,
third and second decoded pairs respectively. -/
theorem stick_cal_slot_placement (buf : List Nat) :
    ((read_stick_cal_from_buf true buf).getD 0 0 = x_max_above buf
      ∧ (read_stick_cal_from_buf true buf).getD 1 0 = y_max_above buf
      ∧ (read_stick_cal_from_buf true buf).getD 2 0 = x_center buf
      ∧ (read_stick_cal_from_buf true buf).getD 3 0 = y_center buf
      ∧ (read_stick_cal_from_buf true buf).getD 4 0 = x_min_below buf
      ∧ (read_stick_cal_from_buf true buf).getD 5 0 = y_min_below buf)
    ∧ ((read_stick_cal_from_buf false buf).getD 2 0 = x_max_above buf
      ∧ (read_stick_cal_from_buf false buf).getD 3 0 = y_max_above buf
      ∧ (read_stick_cal_from_buf false buf).getD 4 0 = x_center buf
      ∧ (read_stick_cal_from_buf false buf).getD 5 0 = y_center buf
      ∧ (read_stick_cal_from_buf false buf).getD 0 0 = x_min_below buf
      ∧ (read_stick_cal_from_buf false buf).getD 1 0 = y_min_below buf) :=
  ⟨⟨rfl, rfl, rfl, rfl, rfl, rfl⟩, rfl, rfl, rfl, rfl, rfl, rfl⟩

/-- C6: the subcommand-reply waiter never accepts a report whose tag is
not 0x21 and fails exactly when no report matches before the transport
fails; the polling loop publishes (to the current raw report and to
callbacks) exactly the reports tagged 0x30, in order. -/
theorem report_tag_filtering (stream : List (List Nat)) :
    (∀ r, await_report_with_tag 0x21 stream = some r → r.getD 0 0 = 0x21)
    ∧ (await_report_with_tag 0x21 stream = none ↔ ∀ r ∈ stream, r.getD 0 0 ≠ 0x21)
    ∧ (∀ r ∈ update_input_report_published stream, r.getD 0 0 = 0x30)
    ∧ update_input_report_published stream
        = stream.filter (fun r => r.getD 0 0 == 0x30) := by
  refine ⟨fun r h => await_report_with_tag_some 0x21 stream r h,
    await_report_with_tag_none 0x21 stream, ?_,
    update_input_report_published_eq_filter stream⟩
  intro r hr
  rw [update_input_report_published_eq_filter] at hr
  have h := List.of_mem_filter hr
  simpa using h

/-- C6 witness: on the stream with tags 0x15, 0x21, 0x30, the waiter
accepts the 0x21 report and the polling loop publishes the 0x30 report. -/
theorem report_tag_filtering_witness :
    ([0x21, 9] : List Nat).getD 0 0 = 0x21 ∧ ([0x30, 7] : List Nat).getD 0 0 = 0x30 :=
  ⟨(report_tag_filtering [[0x15], [0x21, 9], [0x30, 7]]).1 [0x21, 9] (by decide),
   (report_tag_filtering [[0x15], [0x21, 9], [0x30, 7]]).2.2.1 [0x30, 7] (by decide)⟩

/-- Sign of an integer cast divided by a positive natural cast, over ℚ. -/
theorem int_div_nat_cast_sign (a : Int) (d : Nat) (hd : 0 < d) :
    (0 < (a : ℚ) / (d : ℚ) ↔ 0 < a) ∧ ((a : ℚ) / (d : ℚ) < 0 ↔ a < 0)
    ∧ ((a : ℚ) / (d : ℚ) = 0 ↔ a = 0) := by
  have hdq : (0 : ℚ) < (d : ℚ) := by exact_mod_cast hd
  refine ⟨?_, ?_, ?_⟩
  · rw [lt_div_iff₀ hdq, zero_mul]
    exact_mod_cast Iff.rfl
  · rw [div_lt_iff₀ hdq, zero_mul]
    exact_mod_cast Iff.rfl
  · rw [div_eq_zero_iff]
    simp [hdq.ne']

/-- C2: stick normalization returns exactly 0 when the distance to the
stored center is strictly below the deadzone (the boundary is excluded);
otherwise it divides the difference by the above-center slot when the
raw value exceeds the center and by the below-center slot when it is
below, and under positive divisors the sign of the result equals the
sign of the difference. -/
theorem get_actual_stick_value_spec (stick_cal : List Nat) (deadzone : Nat) (pre_cal : Int)
    (orientation : Nat) (horient : orientation = 0 ∨ orientation = 1) :
    (|pre_cal - (stick_cal.getD (2 + orientation) 0 : Int)| < (deadzone : Int) →
      get_actual_stick_value stick_cal deadzone pre_cal orientation = .ok 0)
    ∧ ((deadzone : Int) ≤ |pre_cal - (stick_cal.getD (2 + orientation) 0 : Int)| →
      (stick_cal.getD (2 + orientation) 0 : Int) < pre_cal →
      stick_cal.getD orientation 0 ≠ 0 →
      get_actual_stick_value stick_cal deadzone pre_cal orientation
        = .ok (((pre_cal - (stick_cal.getD (2 + orientation) 0 : Int) : Int) : ℚ)
            / (stick_cal.getD orientation 0 : ℚ)))
    ∧ ((deadzone : Int) ≤ |pre_cal - (stick_cal.getD (2 + orientation) 0 : Int)| →
      pre_cal < (stick_cal.getD (2 + orientation) 0 : Int) →
      stick_cal.getD (4 + orientation) 0 ≠ 0 →
      get_actual_stick_value stick_cal deadzone pre_cal orientation
        = .ok (((pre_cal - (stick_cal.getD (2 + orientation) 0 : Int) : Int) : ℚ)
            / (stick_cal.getD (4 + orientation) 0 : ℚ)))
    ∧ ((deadzone : Int) ≤ |pre_cal - (stick_cal.getD (2 + orientation) 0 : Int)| →
      0 < stick_cal.getD orientation 0 → 0 < stick_cal.getD (4 + orientation) 0 →
      ∃ q : ℚ, get_actual_stick_value stick_cal deadzone pre_cal orientation = .ok q
        ∧ (0 < q ↔ (stick_cal.getD (2 + orientation) 0 : Int) < pre_cal)
        ∧ (q < 0 ↔ pre_cal < (stick_cal.getD (2 + orientation) 0 : Int))
        ∧ (q = 0 ↔ pre_cal = (stick_cal.getD (2 + orientation) 0 : Int))) := by
  refine ⟨?_, ?_, ?_, ?_⟩
  · intro h
    simp only [get_actual_stick_value]
    rw [if_pos h]
  · intro hdz hgt hne
    have h1 : ¬ |pre_cal - (stick_cal.getD (2 + orientation) 0 : Int)| < (deadzone : Int) :=
      not_lt.mpr hdz
    have h2 : (0 : Int) < pre_cal - (stick_cal.getD (2 + orientation) 0 : Int) := by omega
    simp only [get_actual_stick_value]
    rw [if_neg h1, if_pos h2, if_neg hne]
  · intro hdz hlt hne
    have h1 : ¬ |pre_cal - (stick_cal.getD (2 + orientation) 0 : Int)| < (deadzone : Int) :=
      not_lt.mpr hdz
    have h2 : ¬ (0 : Int) < pre_cal - (stick_cal.getD (2 + orientation) 0 : Int) := by omega
    simp only [get_actual_stick_value]
    rw [if_neg h1, if_neg h2, if_neg hne]
  · intro hdz hmax hmin
    have h1 : ¬ |pre_cal - (stick_cal.getD (2 + orientation) 0 : Int)| < (deadzone : Int) :=
      not_lt.mpr hdz
    by_cases h2 : (0 : Int) < pre_cal - (stick_cal.getD (2 + orientation) 0 : Int)
    · refine ⟨((pre_cal - (stick_cal.getD (2 + orientation) 0 : Int) : Int) : ℚ)
          / (stick_cal.getD orientation 0 : ℚ), ?_, ?_, ?_, ?_⟩
      · simp only [get_actual_stick_value]
        rw [if_neg h1, if_pos h2, if_neg hmax.ne']
      · rw [(int_div_nat_cast_sign _ _ hmax).1]
        omega
      · rw [(int_div_nat_cast_sign _ _ hmax).2.1]
        omega
      · rw [(int_div_nat_cast_sign _ _ hmax).2.2]
        omega
    · refine ⟨((pre_cal - (stick_cal.getD (2 + orientation) 0 : Int) : Int) : ℚ)
          / (stick_cal.getD (4 + orientation) 0 : ℚ), ?_, ?_, ?_, ?_⟩
      · simp only [get_actual_stick_value]
        rw [if_neg h1, if_neg h2, if_neg hmin.ne']
      · rw [(int_div_nat_cast_sign _ _ hmin).1]
        omega
      · rw [(int_div_nat_cast_sign _ _ hmin).2.1]
        omega
      · rw [(int_div_nat_cast_sign _ _ hmin).2.2]
        omega

/-- C2 witness: with center 2048, above-center divisor 100, deadzone 10
and raw value 2148, normalization returns exactly 1. -/
theorem get_actual_stick_value_spec_witness :
    get_actual_stick_value [100, 100, 2048, 2048, 200, 200] 10 2148 0 = .ok 1 := by
  have h := (get_actual_stick_value_spec [100, 100, 2048, 2048, 200, 200] 10 2148 0
    (Or.inl rfl)).2.1 (by decide) (by decide) (by decide)
  rw [h]
  norm_num

/-- C4: for either side, when all nine user-calibration bytes are 0xFF
the store reads and parses the side-specific factory block, and when any
byte differs it parses the user block and never reads the factory
address. -/
theorem stick_cal_user_factory_fallback (isLeft : Bool) (flash : Nat → Nat → List Nat) :
    ((∀ b ∈ flash (if isLeft then 0x8012 else 0x801D) 9, b = 0xFF) →
      stick_cal_buf isLeft flash = flash (if isLeft then 0x603D else 0x6046) 9
      ∧ stick_cal_reads isLeft flash
          = [((if isLeft then 0x8012 else 0x801D : Nat), 9),
             ((if isLeft then 0x603D else 0x6046 : Nat), 9)]
      ∧ read_stick_calibration_data isLeft flash
          = read_stick_cal_from_buf isLeft (flash (if isLeft then 0x603D else 0x6046) 9))
    ∧ ((∃ b ∈ flash (if isLeft then 0x8012 else 0x801D) 9, b ≠ 0xFF) →
      stick_cal_buf isLeft flash = flash (if isLeft then 0x8012 else 0x801D) 9
      ∧ stick_cal_reads isLeft flash = [((if isLeft then 0x8012 else 0x801D : Nat), 9)]
      ∧ ((if isLeft then 0x603D else 0x6046 : Nat), 9) ∉ stick_cal_reads isLeft flash
      ∧ read_stick_calibration_data isLeft flash
          = read_stick_cal_from_buf isLeft (flash (if isLeft then 0x8012 else 0x801D) 9)) := by
  constructor
  · intro hall
    have hany : (flash (if isLeft then 0x8012 else 0x801D) 9).any (fun b => b != 0xFF)
        = false := by
      rw [List.any_eq_false]
      intro b hb
      simpa using hall b hb
    refine ⟨?_, ?_, ?_⟩
    · simp [stick_cal_buf, hany]
    · simp [stick_cal_reads, hany]
    · simp [read_stick_calibration_data, stick_cal_buf, hany]
  · intro hex
    have hany : (flash (if isLeft then 0x8012 else 0x801D) 9).any (fun b => b != 0xFF)
        = true := by
      obtain ⟨b, hb, hbne⟩ := hex
      exact List.any_eq_true.mpr ⟨b, hb, by simpa using hbne⟩
    refine ⟨?_, ?_, ?_, ?_⟩
    · simp [stick_cal_buf, hany]
    · simp [stick_cal_reads, hany]
    · simp only [stick_cal_reads, hany]
      cases isLeft <;> simp
    · simp [read_stick_calibration_data, stick_cal_buf, hany]

/-- Concrete flash contents for the fallback witness: the left user block
is all 0xFF, everything else reads as 1..9. -/
def sample_flash : Nat → Nat → List Nat := fun address _size =>
  if address = 0x8012 then List.replicate 9 0xFF else [1, 2, 3, 4, 5, 6, 7, 8, 9]

/-- C4 witness: with an all-0xFF left user block the chosen block is the
factory one. -/
theorem stick_cal_user_factory_fallback_witness :
    stick_cal_buf true sample_flash = [1, 2, 3, 4, 5, 6, 7, 8, 9] := by
  have h := (stick_cal_user_factory_fallback true sample_flash).1 (by decide)
  rw [h.1]
  rfl

/-- C3: the flash reader rejects sizes above 0x1D, sends subcommand 0x10
with the address as four little-endian bytes followed by the size byte,
fails whenever the accepted reply's ack bit (byte 13, bit 7) is clear,
whenever the payload does not start with 0x90 0x10, or whenever the five
echoed bytes at payload offset 2 differ from the request argument, and on
success returns exactly the size-many payload bytes starting at payload
offset 7, unaltered. -/
theorem spi_flash_read_spec (address size : Nat) (stream : List (List Nat))
    (packet_number : Nat) :
    (0x1D < size → spi_flash_read address size stream = .error "AssertionError: size")
    ∧ spi_flash_read_request packet_number address size
        = [0x01, packet_number] ++ RUMBLE_DATA ++ [0x10] ++ (to_bytes_le 4 address ++ [size])
    ∧ ∀ reply, await_report_with_tag 0x21 stream = some reply →
        ((reply.getD 13 0 &&& 0x80 = 0 → ∀ bs, spi_flash_read address size stream ≠ .ok bs)
        ∧ ((reply.drop 13).take 2 ≠ [0x90, 0x10] →
            ∀ bs, spi_flash_read address size stream ≠ .ok bs)
        ∧ (((reply.drop 13).drop 2).take 5 ≠ spi_flash_argument address size →
            ∀ bs, spi_flash_read address size stream ≠ .ok bs)
        ∧ (size ≤ 0x1D → address < 2 ^ 32 → (reply.drop 1).take 1 ≠ [0x10] →
            reply.getD 13 0 &&& 0x80 ≠ 0 → (reply.drop 13).take 2 = [0x90, 0x10] →
            ((reply.drop 13).drop 2).take 5 = spi_flash_argument address size →
            spi_flash_read address size stream = .ok (((reply.drop 13).drop 7).take size)
            ∧ (reply.length = 49 →
                (((reply.drop 13).drop 7).take size).length = size))) := by
  refine ⟨?_, rfl, ?_⟩
  · intro h
    simp only [spi_flash_read]
    rw [if_pos h]
  · intro reply hrep
    refine ⟨?_, ?_, ?_, ?_⟩
    · intro hack bs
      simp only [spi_flash_read, hrep]
      split_ifs <;> simp_all
    · intro hmark bs
      simp only [spi_flash_read, hrep]
      split_ifs <;> simp_all
    · intro hecho bs
      simp only [spi_flash_read, hrep]
      split_ifs <;> simp_all
    · intro hsz hov hassert hack hmark hecho
      constructor
      · simp only [spi_flash_read, hrep]
        rw [if_neg (by omega : ¬ size > 0x1D), if_neg (by omega : ¬ 2 ^ 32 ≤ address),
          if_neg hassert, if_neg hack, if_neg (not_not_intro hmark),
          if_neg (not_not_intro hecho)]
      · intro hlen
        rw [List.length_take, List.length_drop, List.length_drop, hlen]
        omega

/-- Concrete accepted flash-read reply: tag 0x21, ack 0x90, marker
0x90 0x10, echo of address 0x6050 and size 6, then payload 1..6. -/
def sample_reply : List Nat :=
  [0x21, 0, 0, 0, 0, 0, 0, 0, 0, 0, 0, 0, 0,
   0x90, 0x10, 0x50, 0x60, 0, 0, 6, 1, 2, 3, 4, 5, 6,
   0, 0, 0, 0, 0, 0, 0, 0, 0, 0, 0, 0, 0, 0, 0, 0, 0, 0, 0, 0, 0, 0, 0]

/-- C3 witness: reading 6 bytes at 0x6050 from the sample reply yields
exactly the 6 payload bytes 1..6. -/
theorem spi_flash_read_spec_witness :
    spi_flash_read 0x6050 6 [sample_reply] = .ok [1, 2, 3, 4, 5, 6] := by
  have h := ((spi_flash_read_spec 0x6050 6 [sample_reply] 0).2.2 sample_reply
      (by decide)).2.2.2
    (by decide) (by decide) (by decide) (by decide) (by decide) (by decide)
  rw [h.1]
  rfl

/-- C5: accelerometer calibration fails with a division by zero exactly
when some axis has equal raw coefficient and raw offset; otherwise every
stored coefficient equals 4 divided by the axis difference, and the
default arguments (0,0,0) and (1,1,1) give coefficient 4 on every axis. -/
theorem set_accel_calibration_spec (prev : AccelCal) (ox oy oz cx cy cz : Int) :
    ((cx = ox ∨ cy = oy ∨ cz = oz) ↔
      set_accel_calibration prev (some [ox, oy, oz]) (some [cx, cy, cz])
        = .error "ZeroDivisionError")
    ∧ (cx ≠ ox → cy ≠ oy → cz ≠ oz →
      set_accel_calibration prev (some [ox, oy, oz]) (some [cx, cy, cz])
        = .ok ⟨ox, oy, oz, 4 / ((cx : ℚ) - (ox : ℚ)), 4 / ((cy : ℚ) - (oy : ℚ)),
            4 / ((cz : ℚ) - (oz : ℚ))⟩)
    ∧ set_accel_calibration prev (some [0, 0, 0]) (some [1, 1, 1])
        = .ok ⟨0, 0, 0, 4, 4, 4⟩ := by
  refine ⟨⟨?_, ?_⟩, ?_, ?_⟩
  · rintro (h | h | h) <;> simp [set_accel_calibration, tuple_is_truthy, h]
  · intro h
    by_contra hne
    push_neg at hne
    obtain ⟨h1, h2, h3⟩ := hne
    simp [set_accel_calibration, tuple_is_truthy, h1, h2, h3] at h
  · intro h1 h2 h3
    simp only [set_accel_calibration, tuple_is_truthy]
    rw [if_pos (by simp), if_neg h1, if_neg h2, if_neg h3]
    simp only [Except.ok.injEq, AccelCal.mk.injEq]
    refine ⟨trivial, trivial, trivial, ?_, ?_, ?_⟩ <;> ring
  · simp only [set_accel_calibration, tuple_is_truthy]
    norm_num

/-- C5 witness: offsets (0,0,0) and coefficient references (2,2,2) store
offsets 0 and coefficients 2 = 4/(2-0) on every axis. -/
theorem set_accel_calibration_spec_witness :
    set_accel_calibration ⟨0, 0, 0, 1, 1, 1⟩ (some [0, 0, 0]) (some [2, 2, 2])
      = .ok ⟨0, 0, 0, 2, 2, 2⟩ := by
  have h := (set_accel_calibration_spec ⟨0, 0, 0, 1, 1, 1⟩ 0 0 0 2 2 2).2.1
    (by decide) (by decide) (by decide)
  rw [h]
  norm_num

/-- C9: calling `set_accel_calibration` with an absent or falsy argument
(offsets or coefficients equal to None or to an empty tuple) is a
complete no-op: the six stored fields are unchanged and no error is
raised. -/
theorem set_accel_calibration_falsy_noop (prev : AccelCal)
    (offset_xyz coeff_xyz : Option (List Int))
    (h : offset_xyz = none ∨ offset_xyz = some [] ∨ coeff_xyz = none ∨ coeff_xyz = some []) :
    set_accel_calibration prev offset_xyz coeff_xyz = .ok prev := by
  rcases h with h | h | h | h <;> subst h <;>
    simp [set_accel_calibration, tuple_is_truthy]

/-- C9 witness: a None offsets argument leaves the stored state (1..6)
untouched. -/
theorem set_accel_calibration_falsy_noop_witness :
    set_accel_calibration ⟨1, 2, 3, 4, 5, 6⟩ none (some [7, 8, 9]) = .ok ⟨1, 2, 3, 4, 5, 6⟩ :=
  set_accel_calibration_falsy_noop ⟨1, 2, 3, 4, 5, 6⟩ none (some [7, 8, 9]) (Or.inl rfl)

/-- Concrete 49-byte full-state report whose first accelerometer sample
has raw Y value 1 (byte 15 = 1) and raw Z value 1 (byte 17 = 1). -/
def sample_accel_report : List Nat :=
  [0x30, 0, 0, 0, 0, 0, 0, 0, 0, 0, 0, 0, 0,
   0, 0, 1, 0, 1, 0, 0, 0, 0, 0, 0, 0,
   0, 0, 0, 0, 0, 0, 0, 0, 0, 0, 0, 0, 0, 0, 0, 0, 0, 0, 0, 0, 0, 0, 0, 0]

/-- C8 counterexample: for the pro variant (neither left nor right) with
coefficient 1, the first-sample Y accessor on a report with raw Y = 1
returns -1, i.e. negated, while the claim says only the right-side
variant is negated. -/
theorem accel_y_pro_negated :
    get_accel_y Variant.pro 1 [] (some sample_accel_report) 0 = .ok (-1)
    ∧ get_accel_y Variant.pro 1 [] (some sample_accel_report) 0 ≠ .ok 1 := by
  have h : get_accel_y Variant.pro 1 [] (some sample_accel_report) 0 = .ok (-1) := by
    simp [get_accel_y, sample_accel_report, is_left, to_int16le_from_2bytes]
  refine ⟨h, ?_⟩
  rw [h]
  simp
  norm_num

/-- C8 (amended): for every variant, coefficient and report, and every
sample index in 0..2, the Y and Z accessors return the signed 16-bit
little-endian raw value at the sample's fixed sub-offset scaled by the
axis coefficient, negated exactly when the variant is not the left-side
one (so the right-side and the pro variant are both negated); any other
sample index fails with a bounds error. -/
theorem accel_yz_spec (variant : Variant) (coeff_y coeff_z : ℚ)
    (state_report report : List Nat) (sample_idx : Nat) :
    (sample_idx ∉ ([0, 1, 2] : List Nat) →
      get_accel_y variant coeff_y state_report (some report) sample_idx
          = .error "IndexError: sample_idx should be between 0 and 2"
      ∧ get_accel_z variant coeff_z state_report (some report) sample_idx
          = .error "IndexError: sample_idx should be between 0 and 2")
    ∧ (sample_idx ∈ ([0, 1, 2] : List Nat) → report ≠ [] →
      (variant = Variant.left →
        get_accel_y variant coeff_y state_report (some report) sample_idx
          = .ok ((to_int16le_from_2bytes (report.getD (15 + sample_idx * 12) 0)
              (report.getD (16 + sample_idx * 12) 0) : ℚ) * coeff_y)
        ∧ get_accel_z variant coeff_z state_report (some report) sample_idx
          = .ok ((to_int16le_from_2bytes (report.getD (17 + sample_idx * 12) 0)
              (report.getD (18 + sample_idx * 12) 0) : ℚ) * coeff_z))
      ∧ (variant ≠ Variant.left →
        get_accel_y variant coeff_y state_report (some report) sample_idx
          = .ok (-((to_int16le_from_2bytes (report.getD (15 + sample_idx * 12) 0)
              (report.getD (16 + sample_idx * 12) 0) : ℚ) * coeff_y))
        ∧ get_accel_z variant coeff_z state_report (some report) sample_idx
          = .ok (-((to_int16le_from_2bytes (report.getD (17 + sample_idx * 12) 0)
              (report.getD (18 + sample_idx * 12) 0) : ℚ) * coeff_z)))) := by
  constructor
  · intro h
    constructor <;> simp [get_accel_y, get_accel_z, h]
  · intro hmem hne
    have hemp : report.isEmpty = false := by
      cases report with
      | nil => exact absurd rfl hne
      | cons a l => rfl
    constructor
    · intro hv
      subst hv
      constructor <;> simp [get_accel_y, get_accel_z, is_left, hmem, hemp]
    · intro hv
      cases variant with
      | left => exact absurd rfl hv
      | right =>
        constructor <;>
          simp [get_accel_y, get_accel_z, is_left, hmem, hemp, mul_neg_one]
      | pro =>
        constructor <;>
          simp [get_accel_y, get_accel_z, is_left, hmem, hemp, mul_neg_one]

/-- C8 witness: for the left variant with coefficient 1 the first-sample
Y accessor on the sample report returns the raw value 1 unnegated. -/
theorem accel_yz_spec_witness :
    get_accel_y Variant.left 1 [] (some sample_accel_report) 0 = .ok 1 := by
  have h := ((accel_yz_spec Variant.left 1 1 [] sample_accel_report 0).2
    (by decide) (by decide)).1 rfl
  rw [h.1]
  norm_num [sample_accel_report, to_int16le_from_2bytes]

end Pycon
